import Mathlib

/-!
Shallow embedding of the authentication and session core of the
real-estate RAG chat backend (backend/auth_service.py,
backend/auth_middleware.py, backend/auth_routes.py).

Database rows (models.py) are plain structures; the SQLAlchemy session is
modelled as a state `St` holding the current (possibly uncommitted) database
view `db` plus the list `committed` of database snapshots, one per
`commit()` call, in order.  Raising an HTTPException is modelled as an
`Except.error` result; every operation threads the state through both the
success and the error path, so an error result carries the state exactly as
the raising Python code leaves it.

JWTs are modelled as an inductive `Tok`: a token signed with the server key
decodes to its payload, anything else fails signature verification.  This
matches PyJWT semantics: encoding is deterministic in the payload, decoding
checks the signature and then the `exp` claim.
-/

namespace RagAuth

abbrev Time := Int

/-- Payload of a JWT issued by `generate_tokens` (auth_service.py lines
88-107): `user_id`, `type` (`"access"` or `"refresh"`), `exp`, `iat`, and
the random `jti` carried only by refresh tokens. -/
structure JwtPayload where
  user_id : Nat
  type : String
  exp : Time
  iat : Time
  jti : Option String
deriving DecidableEq

/-- An opaque token string: either a JWT signed with the server secret
(which decodes to its payload) or any other string (which fails
signature verification). -/
inductive Tok where
  | signed : JwtPayload → Tok
  | garbage : String → Tok
deriving DecidableEq

inductive JwtError where
  | expired
  | invalid
deriving DecidableEq

/-- `jwt.decode(token, secret, algorithms=[...])`: signature check, then the
`exp` claim; an expired but well-signed token raises ExpiredSignatureError. -/
def jwtDecode (t : Tok) (now : Time) : Except JwtError JwtPayload :=
  match t with
  | .garbage _ => .error .invalid
  | .signed p => if p.exp < now then .error .expired else .ok p

/-- `users` table row (models.py), restricted to the columns the auth core
reads or writes. -/
structure UserRow where
  id : Nat
  email : String
  username : String
  password_hash : String
  is_active : Bool
deriving DecidableEq

/-- `user_sessions` table row. -/
structure SessionRow where
  id : Nat
  user_id : Nat
  session_token : Tok
  refresh_token : Tok
  device_info : String
  is_active : Bool
  expires_at : Time
  last_accessed : Time
deriving DecidableEq

/-- `password_resets` table row. -/
structure ResetRow where
  user_id : Nat
  reset_token : String
  used : Bool
  expires_at : Time
deriving DecidableEq

/-- `audit_logs` table row (detail payload omitted: no claim inspects it). -/
structure AuditRow where
  user_id : Option Nat
  action : String
  ip_address : Option String
  user_agent : Option String
deriving DecidableEq

/-- The database: one list per table, plus the autoincrement counter for
session ids. -/
structure DB where
  users : List UserRow
  sessions : List SessionRow
  resets : List ResetRow
  audits : List AuditRow
  nextSessionId : Nat
deriving DecidableEq

/-- The SQLAlchemy session: current view plus one snapshot per commit. -/
structure St where
  db : DB
  committed : List DB
deriving DecidableEq

/-- `self.db.commit()`: flush the current view as a new durable snapshot. -/
def dbCommit (s : St) : St :=
  { s with committed := s.committed ++ [s.db] }

/-- The `detail` field of a FastAPI HTTPException: either a plain message or
the structured weak-password payload `message` + `errors`. -/
inductive Detail where
  | msg : String → Detail
  | weak : String → List String → Detail
deriving DecidableEq

structure HTTPError where
  status : Nat
  detail : Detail
deriving DecidableEq

/-- An exception escaping an AuthService method: an HTTPException, or a
plain Python error (AttributeError from touching a None row). -/
inductive Err where
  | http : HTTPError → Err
  | attr : Err
deriving DecidableEq

/-- Mutate the first list element satisfying `p` (the object returned by
`query(...).first()`), leaving the rest unchanged. -/
def updateFirst (p : α → Bool) (f : α → α) : List α → List α
  | [] => []
  | x :: xs => if p x then f x :: xs else x :: updateFirst p f xs

/-- The `requirements` dict of `validate_password_strength`. -/
structure StrengthRequirements where
  min_length : Nat
  has_uppercase : Bool
  has_lowercase : Bool
  has_digit : Bool
  has_special : Bool
deriving DecidableEq

structure StrengthResult where
  is_valid : Bool
  errors : List String
  requirements : StrengthRequirements
deriving DecidableEq

/-- The fixed special-character set of auth_service.py line 68. -/
def special_chars : String := "!@#$%^&*()_+-=[]\x7b\x7d|;:,.<>?"

def err_min_length : String := "Password must be at least 8 characters long"

def err_uppercase : String := "Password must contain at least one uppercase letter"

def err_lowercase : String := "Password must contain at least one lowercase letter"

def err_digit : String := "Password must contain at least one number"

def err_special : String := "Password must contain at least one special character"

/-- `AuthService.validate_password_strength` (auth_service.py lines 39-78):
the four character-class rules plus minimum length, each checked
independently, error messages appended in source order.  Python iterates
the characters of the string, modelled by the underlying character list. -/
def validate_password_strength (password : String) : StrengthResult :=
  let has_uppercase := password.data.any Char.isUpper
  let has_lowercase := password.data.any Char.isLower
  let has_digit := password.data.any Char.isDigit
  let has_special := password.data.any (fun c => special_chars.data.contains c)
  let errors :=
    (if password.data.length < 8 then [err_min_length] else []) ++
    (if has_uppercase then [] else [err_uppercase]) ++
    (if has_lowercase then [] else [err_lowercase]) ++
    (if has_digit then [] else [err_digit]) ++
    (if has_special then [] else [err_special])
  { is_valid := errors.length == 0
    errors := errors
    requirements :=
      { min_length := 8
        has_uppercase := has_uppercase
        has_lowercase := has_lowercase
        has_digit := has_digit
        has_special := has_special } }

def access_token_expire_minutes : Int := 30

def refresh_token_expire_days : Int := 7

/-- The wire shape returned by `generate_tokens`. -/
structure TokenPair where
  access_token : Tok
  refresh_token : Tok
  token_type : String
  expires_in : Int
  expires_at : Time
deriving DecidableEq

/-- `AuthService.generate_tokens` (lines 88-126): build the access and
refresh payloads, sign them, persist one new session row keyed by both raw
token strings with expiry equal to the refresh lifetime, and commit.
`jti` stands in for `secrets.token_urlsafe(32)`. -/
def generate_tokens (st : St) (user_id : Nat) (device_info : String)
    (now : Time) (jti : String) : TokenPair × St :=
  let access_payload : JwtPayload :=
    { user_id := user_id, type := "access"
      exp := now + access_token_expire_minutes * 60, iat := now, jti := none }
  let access_token := Tok.signed access_payload
  let refresh_payload : JwtPayload :=
    { user_id := user_id, type := "refresh"
      exp := now + refresh_token_expire_days * 86400, iat := now, jti := some jti }
  let refresh_token := Tok.signed refresh_payload
  let sess : SessionRow :=
    { id := st.db.nextSessionId, user_id := user_id
      session_token := access_token, refresh_token := refresh_token
      device_info := device_info, is_active := true
      expires_at := now + refresh_token_expire_days * 86400
      last_accessed := now }
  let st := { st with db := { st.db with
      sessions := st.db.sessions ++ [sess]
      nextSessionId := st.db.nextSessionId + 1 } }
  let st := dbCommit st
  ({ access_token := access_token, refresh_token := refresh_token
     token_type := "bearer", expires_in := access_token_expire_minutes * 60
     expires_at := access_payload.exp }, st)

/-- The session filter used by `verify_token` for access tokens:
`session_token == token AND is_active == True AND expires_at > utcnow()`. -/
def verifyPred (token : Tok) (now : Time) (s : SessionRow) : Bool :=
  decide (s.session_token = token) && s.is_active && decide (now < s.expires_at)

/-- `AuthService.verify_token` (lines 128-170): decode, check the declared
type, and for access tokens require an active, unexpired session row whose
stored token matches, updating its `last_accessed` and committing. -/
def verify_token (st : St) (token : Tok) (token_type : String) (now : Time) :
    Except Err JwtPayload × St :=
  match jwtDecode token now with
  | .error .expired => (.error (.http ⟨401, .msg "Token has expired"⟩), st)
  | .error .invalid => (.error (.http ⟨401, .msg "Invalid token"⟩), st)
  | .ok payload =>
    if payload.type ≠ token_type then
      (.error (.http ⟨401, .msg "Invalid token type"⟩), st)
    else if token_type = "access" then
      match st.db.sessions.find? (verifyPred token now) with
      | none => (.error (.http ⟨401, .msg "Token not found or expired"⟩), st)
      | some _ =>
        let st := { st with db := { st.db with
            sessions := updateFirst (verifyPred token now)
              (fun s => { s with last_accessed := now }) st.db.sessions } }
        (.ok payload, dbCommit st)
    else (.ok payload, st)

/-- The session filter of `refresh_token`: matching refresh token, owning
user, active, unexpired. -/
def refreshPred (token : Tok) (uid : Nat) (now : Time) (s : SessionRow) : Bool :=
  decide (s.refresh_token = token) && decide (s.user_id = uid) &&
    s.is_active && decide (now < s.expires_at)

/-- `AuthService.refresh_token` (lines 172-198): validate the refresh token,
find the active session row holding it, deactivate that row, commit, then
issue a fresh pair via `generate_tokens`. -/
def refresh_token (st : St) (token : Tok) (device_info : String)
    (now : Time) (jti : String) : Except Err TokenPair × St :=
  match verify_token st token "refresh" now with
  | (.error e, st) => (.error e, st)
  | (.ok payload, st) =>
    let uid := payload.user_id
    match st.db.sessions.find? (refreshPred token uid now) with
    | none => (.error (.http ⟨401, .msg "Refresh token not found or expired"⟩), st)
    | some _ =>
      let st := dbCommit { st with db := { st.db with
          sessions := updateFirst (refreshPred token uid now)
            (fun s => { s with is_active := false }) st.db.sessions } }
      let (pair, st) := generate_tokens st uid device_info now jti
      (.ok pair, st)

/-- `AuthService.log_audit_event` (lines 551-561): insert one audit row and
commit — its own commit, issued after whatever the caller committed. -/
def log_audit_event (st : St) (action : String) (user_id : Option Nat)
    (ip_address user_agent : Option String) : St :=
  dbCommit { st with db := { st.db with
      audits := st.db.audits ++ [⟨user_id, action, ip_address, user_agent⟩] } }

/-- The session filter of `logout_user`: matching access token, owning user,
active (no expiry condition here). -/
def logoutPred (token : Tok) (uid : Nat) (s : SessionRow) : Bool :=
  decide (s.session_token = token) && decide (s.user_id = uid) && s.is_active

/-- `AuthService.logout_user` (lines 331-358): verify the access token
(which itself requires a live session row), deactivate the matching
session, commit, log; returns False when the post-verification query
finds nothing. -/
def logout_user (st : St) (access_token : Tok) (now : Time) :
    Except Err Bool × St :=
  match verify_token st access_token "access" now with
  | (.error e, st) => (.error e, st)
  | (.ok payload, st) =>
    let uid := payload.user_id
    match st.db.sessions.find? (logoutPred access_token uid) with
    | none => (.ok false, st)
    | some _ =>
      let st := dbCommit { st with db := { st.db with
          sessions := updateFirst (logoutPred access_token uid)
            (fun s => { s with is_active := false }) st.db.sessions } }
      let st := log_audit_event st "logout" (some uid) none none
      (.ok true, st)

def enumeration_safe_message : String :=
  "If an account with this email exists, a password reset link has been sent"

/-- `AuthService.create_password_reset_token` (lines 395-428): look up an
active user by email; on a miss, raise an HTTPException with status 200
carrying the enumeration-safe message; on a hit, insert a reset row with a
1-hour expiry, commit, and log.  `tok` stands in for
`secrets.token_urlsafe(32)`. -/
def create_password_reset_token (st : St) (email : String) (now : Time)
    (tok : String) : Except Err String × St :=
  match st.db.users.find? (fun u => decide (u.email = email) && u.is_active) with
  | none => (.error (.http ⟨200, .msg enumeration_safe_message⟩), st)
  | some u =>
    let st := dbCommit { st with db := { st.db with
        resets := st.db.resets ++ [⟨u.id, tok, false, now + 3600⟩] } }
    let st := log_audit_event st "password_reset_requested" (some u.id) none none
    (.ok tok, st)

/-- The outcome of a FastAPI route handler as the caller sees it: a normal
return value, or an exception propagating out of the handler. -/
inductive RouteResult (α : Type) where
  | ok : α → RouteResult α
  | raised : HTTPError → RouteResult α
deriving DecidableEq

/-- The `/auth/forgot-password` route (auth_routes.py lines 291-331): call
the service; re-raise any HTTPException; map any other exception to a 500;
on success, log a route-level audit event and return the success message
(the body is `message: ...`).  The background email task touches no state
modelled here. -/
def forgot_password (st : St) (email : String) (now : Time) (tok : String)
    (ip ua : Option String) : RouteResult String × St :=
  match create_password_reset_token st email now tok with
  | (.error (.http e), st) => (.raised e, st)
  | (.error .attr, st) =>
    (.raised ⟨500, .msg "Password reset request failed"⟩, st)
  | (.ok _, st) =>
    let st := log_audit_event st "password_reset_requested" none ip ua
    (.ok enumeration_safe_message, st)

/-- The reset-row filter of `reset_password`: matching token value, unused,
unexpired. -/
def resetPred (tok : String) (now : Time) (r : ResetRow) : Bool :=
  decide (r.reset_token = tok) && !r.used && decide (now < r.expires_at)

/-- `AuthService.reset_password` (lines 430-482): validate the new password
strength first; then find a matching unused, unexpired reset row; update
the owning user password hash, mark the row used, bulk-deactivate all of
the user active sessions, commit once, then log (a second commit).
`hashFn` stands in for the salted bcrypt hash. -/
def reset_password (st : St) (hashFn : String → String) (tok : String)
    (new_password : String) (now : Time) : Except Err Bool × St :=
  let v := validate_password_strength new_password
  if v.is_valid = false then
    (.error (.http ⟨400, .weak "Password does not meet requirements" v.errors⟩), st)
  else
    match st.db.resets.find? (resetPred tok now) with
    | none => (.error (.http ⟨400, .msg "Invalid or expired reset token"⟩), st)
    | some pr =>
      match st.db.users.find? (fun u => decide (u.id = pr.user_id)) with
      | none => (.error .attr, st)
      | some _ =>
        let db := { st.db with
          users := updateFirst (fun u => decide (u.id = pr.user_id))
            (fun u => { u with password_hash := hashFn new_password }) st.db.users }
        let db := { db with
          resets := updateFirst (resetPred tok now)
            (fun r => { r with used := true }) db.resets }
        let db := { db with
          sessions := db.sessions.map (fun s =>
            if decide (s.user_id = pr.user_id) && s.is_active then
              { s with is_active := false } else s) }
        let st := dbCommit { st with db := db }
        let st := log_audit_event st "password_reset_completed" (some pr.user_id) none none
        (.ok true, st)

/-- Python truthiness of the `except_current` argument of
`revoke_all_sessions`: None and the empty string are falsy. -/
def tokTruthy : Option Tok → Bool
  | none => false
  | some (.garbage s) => !s.isEmpty
  | some (.signed _) => true

/-- The filter built by `revoke_all_sessions`: active sessions of the user,
excluding the one matching `except_current` when that argument is truthy. -/
def revokeAllPred (uid : Nat) (except_current : Option Tok) (s : SessionRow) : Bool :=
  decide (s.user_id = uid) && s.is_active &&
    (if tokTruthy except_current
     then decide (some s.session_token ≠ except_current) else true)

/-- `AuthService.revoke_all_sessions` (lines 610-637): collect the matching
rows, deactivate each, commit once, log (a second commit), and return the
count of rows actually deactivated. -/
def revoke_all_sessions (st : St) (user_id : Nat) (except_current : Option Tok) :
    Nat × St :=
  let p := revokeAllPred user_id except_current
  let count := (st.db.sessions.filter p).length
  let st := dbCommit { st with db := { st.db with
      sessions := st.db.sessions.map (fun s =>
        if p s then { s with is_active := false } else s) } }
  let st := log_audit_event st "all_sessions_revoked" (some user_id) none none
  (count, st)

/-- The module-level `rate_limit_storage` defaultdict, keyed by
`identifier:endpoint`, holding request timestamps. -/
abbrev RLStorage := List (String × List Int)

def rlGet (storage : RLStorage) (k : String) : List Int :=
  match storage.find? (fun kv => decide (kv.1 = k)) with
  | some kv => kv.2
  | none => []

def rlSet (storage : RLStorage) (k : String) (v : List Int) : RLStorage :=
  match storage.find? (fun kv => decide (kv.1 = k)) with
  | some _ => storage.map (fun kv => if kv.1 = k then (k, v) else kv)
  | none => storage ++ [(k, v)]

/-- `RateLimiter.is_allowed` (auth_middleware.py lines 57-83): prune the
window to the last hour, count the last minute and the last hour, deny at
either cap without recording, otherwise append the current timestamp. -/
def is_allowed (storage : RLStorage) (requests_per_minute requests_per_hour : Nat)
    (identifier endpoint : String) (now : Int) : Bool × RLStorage :=
  let key := identifier ++ ":" ++ endpoint
  let lst := (rlGet storage key).filter (fun t => now - t < 3600)
  let minute_requests := (lst.filter (fun t => now - 60 < t)).length
  let hour_requests := lst.length
  if requests_per_minute ≤ minute_requests ∨ requests_per_hour ≤ hour_requests then
    (false, rlSet storage key lst)
  else
    (true, rlSet storage key (lst ++ [now]))

/-- Decimal digits of a natural number, most significant first: the
observable behaviour of Python `str` on a non-negative int. -/
def natToStr (n : Nat) : List Char :=
  if n < 10 then [Nat.digitChar n]
  else natToStr (n / 10) ++ [Nat.digitChar (n % 10)]
decreasing_by exact Nat.div_lt_self (by omega) (by omega)

/-- Python `str` on an int: optional minus sign followed by the digits. -/
def intToStr : Int → List Char
  | .ofNat n => natToStr n
  | .negSucc n => '-' :: natToStr (n + 1)

def digitVal? (c : Char) : Option Nat :=
  if c.isDigit then some (c.toNat - 48) else none

def strToNatAux : Nat → List Char → Option Nat
  | acc, [] => some acc
  | acc, c :: cs =>
    match digitVal? c with
    | none => none
    | some d => strToNatAux (acc * 10 + d) cs

def strToNat? : List Char → Option Nat
  | [] => none
  | cs => strToNatAux 0 cs

/-- Python `int` on a string (restricted to the sign-and-digits forms the
CSRF code produces): `ValueError` is `none`. -/
def strToInt? (cs : List Char) : Option Int :=
  if cs.head? = some '-' then (strToNat? cs.tail).map (fun n => -(n : Int))
  else (strToNat? cs).map (fun n => (n : Int))

/-- Python `token.split(".", 1)` followed by two-element unpacking: split at
the first dot; no dot at all is the `ValueError` case, hence `none`. -/
def splitDot1 : List Char → Option (List Char × List Char)
  | [] => none
  | c :: cs =>
    if c = '.' then some ([], cs)
    else
      match splitDot1 cs with
      | none => none
      | some (a, b) => some (c :: a, b)

/-- `CSRFProtection` (auth_middleware.py lines 407-450).  Token text is a
list of characters; `hmac_sha256_hex` stands in for the external
`hmac.new(key, msg, hashlib.sha256).hexdigest()` primitive, keyed by the
server secret. -/
structure CSRFProtection where
  secret : List Char
  hmac_sha256_hex : List Char → List Char → List Char

/-- `CSRFProtection.generate_token` (lines 413-424): sign
`user_id:timestamp` and return `timestamp.signature`. -/
def CSRFProtection.generate_token (c : CSRFProtection) (user_id : Nat)
    (now : Int) : List Char :=
  let timestamp := intToStr now
  let message := natToStr user_id ++ ':' :: timestamp
  let signature := c.hmac_sha256_hex c.secret message
  timestamp ++ '.' :: signature

/-- `CSRFProtection.validate_token` (lines 426-450): split at the first dot,
parse the timestamp, reject when older than `max_age`, recompute the
signature for the presented `user_id` and compare
(`hmac.compare_digest` is equality). -/
def CSRFProtection.validate_token (c : CSRFProtection) (token : List Char)
    (user_id : Nat) (now : Int) (max_age : Int) : Bool :=
  match splitDot1 token with
  | none => false
  | some (timestamp_str, signature) =>
    match strToInt? timestamp_str with
    | none => false
    | some timestamp =>
      if max_age < now - timestamp then false
      else
        let message := natToStr user_id ++ ':' :: timestamp_str
        let expected := c.hmac_sha256_hex c.secret message
        decide (signature = expected)

/-! ## Concrete fixtures used by witness theorems -/

/-- A signed access token for user 1, used by concrete witness states. -/
def wAccessTok : Tok := Tok.signed ⟨1, "access", 100, 0, none⟩

/-- A second signed access token for user 1. -/
def wAccessTok2 : Tok := Tok.signed ⟨1, "access", 101, 1, none⟩

/-- A signed refresh token for user 1. -/
def wRefreshTok : Tok := Tok.signed ⟨1, "refresh", 1000, 0, some "jti1"⟩

/-- The empty database state. -/
def wStEmpty : St := ⟨⟨[], [], [], [], 0⟩, []⟩

/-- A state with two active sessions for user 1. -/
def wStTwoSessions : St :=
  ⟨⟨[], [⟨1, 1, wAccessTok, wRefreshTok, "d1", true, 300, 0⟩,
         ⟨2, 1, wAccessTok2, Tok.signed ⟨1, "refresh", 1001, 1, some "jti2"⟩,
          "d2", true, 300, 1⟩],
    [], [], 3⟩, []⟩

/-- A state with a single active session for user 1, holding both witness
tokens. -/
def wStOneSession : St :=
  ⟨⟨[], [⟨1, 1, wAccessTok, wRefreshTok, "d1", true, 300, 0⟩], [], [], 2⟩, []⟩

/-- A state with one active user, one active session, and one unused,
unexpired password-reset token bound to that user. -/
def wStReset : St :=
  ⟨⟨[⟨1, "a@x.com", "a", "oldhash", true⟩],
    [⟨1, 1, wAccessTok, wRefreshTok, "d1", true, 300, 0⟩],
    [⟨1, "rtok", false, 100⟩], [], 2⟩, []⟩

/-- Rate-limit storage holding 60 timestamps for one client and bucket. -/
def wRLStorage : RLStorage := [("ip:auth", List.replicate 60 (0 : Int))]

/-- A CSRF component whose keyed-hash stand-in is the identity on the
message: enough to exercise the token format, and its (trivially
collision-free on distinct messages) signature comparison. -/
def wCSRF : CSRFProtection := ⟨[], fun _k m => m⟩

/-! ## General list lemmas

Queries in the source are `query(...).filter(...).first()` over tables whose
interesting key column (token value, user id) identifies at most one row.
The lemmas below turn that uniqueness, phrased as `countP q l ≤ 1` for the
key predicate `q`, into facts about `find?` and `updateFirst`. -/

lemma countP_le_cons {α : Type _} (q : α → Bool) (a : α) (t : List α) :
    t.countP q ≤ (a :: t).countP q := by
  rw [List.countP_cons]
  exact Nat.le_add_right _ _

lemma countP_le_one_unique {α : Type _} {q : α → Bool} {l : List α}
    (h : l.countP q ≤ 1) {x y : α} (hx : x ∈ l) (hy : y ∈ l)
    (hqx : q x = true) (hqy : q y = true) : x = y := by
  induction l with
  | nil => cases hx
  | cons a t ih =>
    by_cases hqa : q a = true
    · have h0 : t.countP q = 0 := by
        rw [List.countP_cons, if_pos hqa] at h
        omega
      have hnt := List.countP_eq_zero.1 h0
      have hx' : x = a := by
        rcases List.mem_cons.1 hx with h | h
        · exact h
        · exact absurd hqx (hnt x h)
      have hy' : y = a := by
        rcases List.mem_cons.1 hy with h | h
        · exact h
        · exact absurd hqy (hnt y h)
      rw [hx', hy']
    · have hx' : x ∈ t := by
        rcases List.mem_cons.1 hx with h | h
        · exact absurd (h ▸ hqx) hqa
        · exact h
      have hy' : y ∈ t := by
        rcases List.mem_cons.1 hy with h | h
        · exact absurd (h ▸ hqy) hqa
        · exact h
      exact ih (le_trans (countP_le_cons q a t) h) hx' hy'

lemma find?_unique {α : Type _} {p q : α → Bool} {l : List α} {x : α}
    (hx : x ∈ l) (hpx : p x = true) (hq : l.countP q ≤ 1) (hqx : q x = true)
    (hpq : ∀ y, p y = true → q y = true) : l.find? p = some x := by
  induction l with
  | nil => cases hx
  | cons a t ih =>
    by_cases hpa : p a = true
    · rw [List.find?_cons_of_pos _ hpa]
      have : a = x :=
        countP_le_one_unique hq (List.mem_cons_self a t) hx (hpq a hpa) hqx
      rw [this]
    · rw [List.find?_cons_of_neg _ (by simpa using hpa)]
      have hxt : x ∈ t := by
        rcases List.mem_cons.1 hx with rfl | hxt
        · exact absurd hpx hpa
        · exact hxt
      exact ih hxt (le_trans (countP_le_cons q a t) hq)

lemma map_id_of {α : Type _} {g : α → α} {l : List α}
    (h : ∀ y ∈ l, g y = y) : l.map g = l := by
  induction l with
  | nil => rfl
  | cons a t ih =>
    simp only [List.map_cons, h a (List.mem_cons_self a t),
      ih (fun y hy => h y (List.mem_cons_of_mem a hy))]

lemma updateFirst_unique_eq {α : Type _} {p q : α → Bool} (f : α → α)
    {l : List α} {x : α}
    (hx : x ∈ l) (hpx : p x = true) (hq : l.countP q ≤ 1) (hqx : q x = true)
    (hpq : ∀ y, p y = true → q y = true) :
    updateFirst p f l = l.map (fun y => if q y then f y else y) := by
  induction l with
  | nil => cases hx
  | cons a t ih =>
    by_cases hpa : p a = true
    · have hax : a = x :=
        countP_le_one_unique hq (List.mem_cons_self a t) hx (hpq a hpa) hqx
      have hqa : q a = true := hpq a hpa
      have h0 : t.countP q = 0 := by
        rw [List.countP_cons, if_pos hqa] at hq
        omega
      have ht : ∀ y ∈ t, q y = false := by
        intro y hy
        have := (List.countP_eq_zero.1 h0) y hy
        simpa using this
      simp only [updateFirst, hpa, if_true, List.map_cons, hqa]
      rw [map_id_of (fun y hy => by rw [ht y hy]; simp)]
    · have hqa : q a = false := by
        by_contra hne
        have hqa : q a = true := by simpa using hne
        have : a = x :=
          countP_le_one_unique hq (List.mem_cons_self a t) hx hqa hqx
        rw [this] at hpa
        exact hpa hpx
      have hxt : x ∈ t := by
        rcases List.mem_cons.1 hx with rfl | hxt
        · exact absurd hpx hpa
        · exact hxt
      have hq' : t.countP q ≤ 1 := le_trans (countP_le_cons q a t) hq
      simp only [updateFirst, hpa, if_false, List.map_cons, hqa, if_false,
        ih hxt hq']
      simp [hqa]

/-! ## C6: password strength validation -/

set_option maxHeartbeats 1600000 in
/-- Which messages `validate_password_strength` puts into `errors`: exactly
the messages of the violated rules. -/
lemma mem_strength_errors (pw : String) (m : String) :
    m ∈ (validate_password_strength pw).errors ↔
      (m = err_min_length ∧ pw.data.length < 8) ∨
      (m = err_uppercase ∧ ¬ pw.data.any Char.isUpper = true) ∨
      (m = err_lowercase ∧ ¬ pw.data.any Char.isLower = true) ∨
      (m = err_digit ∧ ¬ pw.data.any Char.isDigit = true) ∨
      (m = err_special ∧
        ¬ pw.data.any (fun c => special_chars.data.contains c) = true) := by
  by_cases h1 : pw.data.length < 8 <;>
    by_cases h2 : pw.data.any Char.isUpper = true <;>
    by_cases h3 : pw.data.any Char.isLower = true <;>
    by_cases h4 : pw.data.any Char.isDigit = true <;>
    by_cases h5 : pw.data.any (fun c => special_chars.data.contains c) = true <;>
    simp [validate_password_strength, h1, h2, h3, h4, h5] <;> tauto

/-- C6: `validate_strength` is a pure function; a password of length at
least 8 with an uppercase letter, a lowercase letter, a digit, and a
special character yields `is_valid = true` with no errors; for every
password, `errors` contains the message of each violated rule and no
message of any satisfied rule. -/
theorem validate_strength_exact (pw : String) :
    (8 ≤ pw.data.length → pw.data.any Char.isUpper = true →
      pw.data.any Char.isLower = true → pw.data.any Char.isDigit = true →
      pw.data.any (fun c => special_chars.data.contains c) = true →
      validate_password_strength pw =
        { is_valid := true, errors := []
          requirements := ⟨8, true, true, true, true⟩ }) ∧
    (err_min_length ∈ (validate_password_strength pw).errors ↔
      pw.data.length < 8) ∧
    (err_uppercase ∈ (validate_password_strength pw).errors ↔
      pw.data.any Char.isUpper = false) ∧
    (err_lowercase ∈ (validate_password_strength pw).errors ↔
      pw.data.any Char.isLower = false) ∧
    (err_digit ∈ (validate_password_strength pw).errors ↔
      pw.data.any Char.isDigit = false) ∧
    (err_special ∈ (validate_password_strength pw).errors ↔
      pw.data.any (fun c => special_chars.data.contains c) = false) := by
  have d1 : err_min_length ≠ err_uppercase := by decide
  have d2 : err_min_length ≠ err_lowercase := by decide
  have d3 : err_min_length ≠ err_digit := by decide
  have d4 : err_min_length ≠ err_special := by decide
  have d5 : err_uppercase ≠ err_lowercase := by decide
  have d6 : err_uppercase ≠ err_digit := by decide
  have d7 : err_uppercase ≠ err_special := by decide
  have d8 : err_lowercase ≠ err_digit := by decide
  have d9 : err_lowercase ≠ err_special := by decide
  have d10 : err_lowercase ≠ err_special := by decide
  have d11 : err_digit ≠ err_special := by decide
  refine ⟨?_, ?_, ?_, ?_, ?_, ?_⟩
  · intro h8 hU hL hD hS
    have h8' : ¬ pw.data.length < 8 := by omega
    simp only [validate_password_strength, hU, hL, hD, hS, if_neg h8']
    rfl
  · rw [mem_strength_errors]
    simp [d1, d2, d3, d4]
  · rw [mem_strength_errors]
    simp [d1.symm, d5, d6, d7, Bool.not_eq_true]
  · rw [mem_strength_errors]
    simp [d2.symm, d5.symm, d8, d9, Bool.not_eq_true]
  · rw [mem_strength_errors]
    simp [d3.symm, d6.symm, d8.symm, d11, Bool.not_eq_true]
  · rw [mem_strength_errors]
    simp [d4.symm, d7.symm, d9.symm, d11.symm, Bool.not_eq_true]

/-- Concrete instance of the `is_valid` branch of `validate_strength_exact`. -/
theorem validate_strength_exact_witness :
    validate_password_strength "Abcdef1!" =
      { is_valid := true, errors := []
        requirements := ⟨8, true, true, true, true⟩ } :=
  (validate_strength_exact "Abcdef1!").1 (by decide) (by decide) (by decide)
    (by decide) (by decide)

/-! ## C10: strength validated before the reset token is looked up -/

lemma reset_password_weak_run (st : St)
    (hashFn : String → String) (tok new_password : String) (now : Time)
    (h : (validate_password_strength new_password).is_valid = false) :
    reset_password st hashFn tok new_password now =
      (.error (.http ⟨400, .weak "Password does not meet requirements"
        (validate_password_strength new_password).errors⟩), st) := by
  unfold reset_password
  simp [h]

/-- C10: `reset_password` validates the new password first; a weak password
fails with the itemized weak-password error and leaves the state untouched,
whatever the supplied token and whatever the database holds. -/
theorem reset_password_strength_checked_first (st : St)
    (hashFn : String → String) (tok new_password : String) (now : Time)
    (h : (validate_password_strength new_password).is_valid = false) :
    reset_password st hashFn tok new_password now =
      (.error (.http ⟨400, .weak "Password does not meet requirements"
        (validate_password_strength new_password).errors⟩), st) :=
  reset_password_weak_run st hashFn tok new_password now h

/-- Concrete instance: a one-character password fails the weak-password way
on an empty database with an arbitrary token, changing nothing. -/
theorem reset_password_strength_checked_first_witness :
    reset_password ⟨⟨[], [], [], [], 0⟩, []⟩ (fun s => s) "sometoken" "x" 0 =
      (.error (.http ⟨400, .weak "Password does not meet requirements"
        (validate_password_strength "x").errors⟩), ⟨⟨[], [], [], [], 0⟩, []⟩) :=
  reset_password_strength_checked_first ⟨⟨[], [], [], [], 0⟩, []⟩
    (fun s => s) "sometoken" "x" 0 (by decide)

/-! ## C5: revoke all sessions except the kept token -/

lemma countP_and_not_split {α : Type _} (p q : α → Bool) (l : List α) :
    l.countP (fun a => p a && q a) + l.countP (fun a => p a && !q a) =
      l.countP p := by
  induction l with
  | nil => rfl
  | cons a t ih =>
    simp only [List.countP_cons]
    by_cases hp : p a = true <;> by_cases hq : q a = true <;>
      simp [hp, hq] <;> omega

/-- `revokeAllPred` with a truthy kept token, pointwise. -/
lemma revokeAllPred_some (uid : Nat) (k : Tok) (hk : tokTruthy (some k) = true)
    (s : SessionRow) :
    revokeAllPred uid (some k) s =
      (decide (s.user_id = uid) && s.is_active && !(decide (s.session_token = k))) := by
  unfold revokeAllPred
  rw [if_pos hk]
  by_cases h : s.session_token = k <;> simp [h]

/-- C5: with `n` active sessions for the user, exactly one of which holds
the kept access token `K`, `revoke_all_sessions(user, except_current = K)`
returns `n - 1`, leaves exactly one active session for the user, and that
remaining active session holds `K`. -/
theorem revoke_all_keeps_current (st : St) (uid : Nat) (k : Tok)
    (hk : tokTruthy (some k) = true)
    (huniq : (st.db.sessions.countP fun s =>
        (decide (s.user_id = uid) && s.is_active) && decide (s.session_token = k)) = 1) :
    (revoke_all_sessions st uid (some k)).1 =
      (st.db.sessions.countP fun s => decide (s.user_id = uid) && s.is_active) - 1 ∧
    (((revoke_all_sessions st uid (some k)).2).db.sessions.countP
        fun s => decide (s.user_id = uid) && s.is_active) = 1 ∧
    (∀ s ∈ ((revoke_all_sessions st uid (some k)).2).db.sessions,
        s.user_id = uid → s.is_active = true → s.session_token = k) := by
  have hsplit : (st.db.sessions.countP fun s =>
        (decide (s.user_id = uid) && s.is_active) && decide (s.session_token = k)) +
      (st.db.sessions.countP fun s =>
        (decide (s.user_id = uid) && s.is_active) && !(decide (s.session_token = k))) =
      st.db.sessions.countP fun s => decide (s.user_id = uid) && s.is_active := by
    simpa using countP_and_not_split
      (fun s => decide (s.user_id = uid) && s.is_active)
      (fun s => decide (s.session_token = k)) st.db.sessions
  have hcount : (st.db.sessions.filter (revokeAllPred uid (some k))).length =
      st.db.sessions.countP (fun s =>
        (decide (s.user_id = uid) && s.is_active) && !(decide (s.session_token = k))) := by
    rw [← List.countP_eq_length_filter]
    apply List.countP_congr
    intro s _
    rw [revokeAllPred_some uid k hk s]
  refine ⟨?_, ?_, ?_⟩
  · show (st.db.sessions.filter (revokeAllPred uid (some k))).length = _
    rw [hcount]
    omega
  · show ((st.db.sessions.map fun s =>
        if revokeAllPred uid (some k) s then { s with is_active := false } else s).countP
          fun s => decide (s.user_id = uid) && s.is_active) = 1
    rw [List.countP_map, ← huniq]
    apply List.countP_congr
    intro s _
    simp only [Function.comp]
    by_cases h1 : s.user_id = uid <;> by_cases h2 : s.is_active = true <;>
      by_cases h3 : s.session_token = k <;>
      simp [revokeAllPred, hk, h1, h2, h3]
  · intro s hs hsu hsa
    rcases List.mem_map.1 hs with ⟨s0, hs0, rfl⟩
    by_cases h1 : s0.user_id = uid <;> by_cases h2 : s0.is_active = true <;>
      by_cases h3 : s0.session_token = k <;>
      simp [revokeAllPred, hk, h1, h2, h3] at hsu hsa ⊢

/-- Concrete instance of `revoke_all_keeps_current`: user 1 has two active
sessions; revoking all but the first leaves one active session holding
the kept token, and the call returns prior-count minus one. -/
theorem revoke_all_keeps_current_witness :
    (revoke_all_sessions wStTwoSessions 1 (some wAccessTok)).1 =
      (wStTwoSessions.db.sessions.countP fun s =>
        decide (s.user_id = 1) && s.is_active) - 1 ∧
    (((revoke_all_sessions wStTwoSessions 1 (some wAccessTok)).2).db.sessions.countP
        fun s => decide (s.user_id = 1) && s.is_active) = 1 ∧
    (∀ s ∈ ((revoke_all_sessions wStTwoSessions 1 (some wAccessTok)).2).db.sessions,
        s.user_id = 1 → s.is_active = true → s.session_token = wAccessTok) :=
  revoke_all_keeps_current wStTwoSessions 1 wAccessTok (by decide) (by decide)

/-! ## C8: fixed-window rate limiter -/

/-- C8: with the default cap of 60 per minute, a 61st check within the same
60-second window is denied and records nothing (the stored window is
unchanged); a later check, more than 60 seconds after every recorded
request, is allowed again; and in general a denied check never appends
a timestamp — it only prunes entries older than an hour. -/
theorem rate_limiter_window (storage : RLStorage) (identifier endpoint : String)
    (ts : List Int) (now later : Int)
    (hts : rlGet storage (identifier ++ ":" ++ endpoint) = ts)
    (hlen : ts.length = 60)
    (hrecent : ∀ t ∈ ts, now - t < 60)
    (hlate : ∀ t ∈ ts, 60 < later - t) :
    is_allowed storage 60 1000 identifier endpoint now =
      (false, rlSet storage (identifier ++ ":" ++ endpoint) ts) ∧
    (is_allowed storage 60 1000 identifier endpoint later).1 = true ∧
    (∀ st2 rpm rph now2,
      (is_allowed st2 rpm rph identifier endpoint now2).1 = false →
      (is_allowed st2 rpm rph identifier endpoint now2).2 =
        rlSet st2 (identifier ++ ":" ++ endpoint)
          ((rlGet st2 (identifier ++ ":" ++ endpoint)).filter
            (fun t => now2 - t < 3600))) := by
  refine ⟨?_, ?_, ?_⟩
  · have hprune : ts.filter (fun t => decide (now - t < 3600)) = ts :=
      List.filter_eq_self.2 (fun t ht => by
        have := hrecent t ht
        simp only [decide_eq_true_eq]
        omega)
    have hminute : ts.filter (fun t => decide (now - 60 < t)) = ts :=
      List.filter_eq_self.2 (fun t ht => by
        have := hrecent t ht
        simp only [decide_eq_true_eq]
        omega)
    simp only [is_allowed, hts, hprune, hminute]
    rw [if_pos (by omega)]
  · have hm : ((ts.filter (fun t => decide (later - t < 3600))).filter
        (fun t => decide (later - 60 < t))).length = 0 := by
      have : (ts.filter (fun t => decide (later - t < 3600))).filter
          (fun t => decide (later - 60 < t)) = [] := by
        rw [List.filter_filter]
        apply List.filter_eq_nil_iff.2
        intro t ht
        have := hlate t ht
        simp only [Bool.and_eq_true, decide_eq_true_eq, not_and]
        intro
        omega
      rw [this]
      rfl
    have hhour : (ts.filter (fun t => decide (later - t < 3600))).length ≤ 60 :=
      le_trans (List.length_filter_le _ _) (le_of_eq hlen)
    simp only [is_allowed, hts]
    rw [if_neg (fun hcon => by rcases hcon with hcon | hcon <;> omega)]
  · intro st2 rpm rph now2 h
    simp only [is_allowed] at h ⊢
    by_cases hc : rpm ≤ (((rlGet st2 (identifier ++ ":" ++ endpoint)).filter
          (fun t => decide (now2 - t < 3600))).filter
            (fun t => decide (now2 - 60 < t))).length ∨
        rph ≤ ((rlGet st2 (identifier ++ ":" ++ endpoint)).filter
          (fun t => decide (now2 - t < 3600))).length
    · rw [if_pos hc]
    · rw [if_neg hc] at h
      cases h

/-- Concrete instance of `rate_limiter_window`: 60 requests recorded at
time 0; the check at time 30 is denied and records nothing; the check at
time 70 is allowed. -/
theorem rate_limiter_window_witness :
    is_allowed wRLStorage 60 1000 "ip" "auth" 30 =
      (false, rlSet wRLStorage ("ip" ++ ":" ++ "auth")
        (List.replicate 60 (0 : Int))) ∧
    (is_allowed wRLStorage 60 1000 "ip" "auth" 70).1 = true :=
  ⟨(rate_limiter_window wRLStorage "ip" "auth" (List.replicate 60 (0 : Int)) 30 70
      (by decide) (by decide) (by decide) (by decide)).1,
   (rate_limiter_window wRLStorage "ip" "auth" (List.replicate 60 (0 : Int)) 30 70
      (by decide) (by decide) (by decide) (by decide)).2.1⟩

/-! ## C9: CSRF token generation and validation

Facts about the decimal print/parse pair modelling Python `str`/`int`,
then the round-trip behaviour of the CSRF token. -/

lemma natToStr_digits (n : Nat) : ∀ c ∈ natToStr n, c.isDigit = true := by
  induction n using natToStr.induct with
  | case1 n h =>
    rw [natToStr, if_pos h]
    intro c hc
    have hc' : c = Nat.digitChar n := by simpa using hc
    subst hc'
    interval_cases n <;> decide
  | case2 n h ih =>
    rw [natToStr, if_neg h]
    intro c hc
    rcases List.mem_append.1 hc with h1 | h1
    · exact ih c h1
    · have hc' : c = Nat.digitChar (n % 10) := by simpa using h1
      subst hc'
      have h10 : n % 10 < 10 := Nat.mod_lt _ (by omega)
      interval_cases hm : (n % 10) <;> decide

lemma natToStr_ne_nil (n : Nat) : natToStr n ≠ [] := by
  rw [natToStr]
  split_ifs <;> simp

lemma dot_not_mem_natToStr (n : Nat) : '.' ∉ natToStr n := fun h =>
  absurd (natToStr_digits n '.' h) (by decide)

lemma dot_not_mem_intToStr (t : Int) : '.' ∉ intToStr t := by
  cases t with
  | ofNat n => exact dot_not_mem_natToStr n
  | negSucc n =>
    intro h
    rcases List.mem_cons.1 h with h | h
    · exact absurd h (by decide)
    · exact dot_not_mem_natToStr (n + 1) h

lemma strToNatAux_append (acc : Nat) (xs ys : List Char) :
    strToNatAux acc (xs ++ ys) =
      match strToNatAux acc xs with
      | none => none
      | some a => strToNatAux a ys := by
  induction xs generalizing acc with
  | nil => rfl
  | cons c cs ih =>
    simp only [List.cons_append, strToNatAux]
    cases digitVal? c with
    | none => rfl
    | some d => exact ih _

lemma digitVal_digitChar (d : Nat) (h : d < 10) :
    digitVal? (Nat.digitChar d) = some d := by
  interval_cases d <;> decide

lemma strToNatAux_natToStr (n : Nat) :
    ∀ acc, strToNatAux acc (natToStr n) =
      some (acc * 10 ^ (natToStr n).length + n) := by
  induction n using natToStr.induct with
  | case1 n h =>
    intro acc
    rw [natToStr, if_pos h]
    simp only [strToNatAux, digitVal_digitChar n h, List.length_singleton]
    norm_num
  | case2 n h ih =>
    intro acc
    rw [natToStr, if_neg h]
    rw [strToNatAux_append, ih acc]
    have h10 : n % 10 < 10 := Nat.mod_lt _ (by omega)
    simp only [strToNatAux, digitVal_digitChar _ h10]
    congr 1
    rw [List.length_append, List.length_singleton, pow_succ]
    have key : (acc * 10 ^ (natToStr (n / 10)).length + n / 10) * 10 + n % 10 =
        acc * (10 ^ (natToStr (n / 10)).length * 10) + (10 * (n / 10) + n % 10) := by
      ring
    rw [key, Nat.div_add_mod]

lemma strToNat_natToStr (n : Nat) : strToNat? (natToStr n) = some n := by
  have h := strToNatAux_natToStr n 0
  cases hcs : natToStr n with
  | nil => exact absurd hcs (natToStr_ne_nil n)
  | cons c cs =>
    rw [hcs] at h
    simp only [strToNat?, h]
    norm_num

lemma strToInt_intToStr (t : Int) : strToInt? (intToStr t) = some t := by
  cases t with
  | ofNat n =>
    have hhead : (natToStr n).head? ≠ some '-' := by
      cases hcs : natToStr n with
      | nil => exact absurd hcs (natToStr_ne_nil n)
      | cons c cs =>
        have hd : c.isDigit = true :=
          natToStr_digits n c (by rw [hcs]; exact List.mem_cons_self c cs)
        simp only [List.head?_cons, ne_eq, Option.some.injEq]
        intro hcdot
        rw [hcdot] at hd
        exact absurd hd (by decide)
    show strToInt? (natToStr n) = some (Int.ofNat n)
    unfold strToInt?
    rw [if_neg hhead, strToNat_natToStr]
    rfl
  | negSucc n =>
    show strToInt? ('-' :: natToStr (n + 1)) = some (Int.negSucc n)
    unfold strToInt?
    rw [if_pos (show ('-' :: natToStr (n + 1)).head? = some '-' from rfl)]
    simp only [List.tail_cons, strToNat_natToStr, Option.map_some]
    rw [Int.negSucc_eq]
    norm_num

lemma splitDot1_append (xs ys : List Char) (h : '.' ∉ xs) :
    splitDot1 (xs ++ '.' :: ys) = some (xs, ys) := by
  induction xs with
  | nil => simp [splitDot1]
  | cons c cs ih =>
    have hc : ¬ c = '.' := fun hc => h (by rw [hc]; exact List.mem_cons_self _ _)
    simp only [List.cons_append, splitDot1, if_neg hc, List.append_eq]
    rw [ih (fun hm => h (List.mem_cons_of_mem c hm))]

/-- C9: `generate_token(user_id)` yields `"<timestamp>.<signature>"` with
the signature the keyed hash of `"user_id:timestamp"`; the token validates
for the same `user_id` within `max_age = 3600` of its timestamp, and fails
for a different `user_id` (whenever the two signatures differ, which is the
collision-freedom the HMAC provides) and after `max_age` has elapsed. -/
theorem csrf_token_validation (c : CSRFProtection) (uid uid2 : Nat)
    (t now now2 : Int)
    (hage : now - t ≤ 3600)
    (hlate : 3600 < now2 - t)
    (hdiff : c.hmac_sha256_hex c.secret (natToStr uid2 ++ ':' :: intToStr t) ≠
             c.hmac_sha256_hex c.secret (natToStr uid ++ ':' :: intToStr t)) :
    c.generate_token uid t =
      intToStr t ++ '.' ::
        c.hmac_sha256_hex c.secret (natToStr uid ++ ':' :: intToStr t) ∧
    c.validate_token (c.generate_token uid t) uid now 3600 = true ∧
    (∀ m, c.validate_token (c.generate_token uid t) uid2 m 3600 = false) ∧
    c.validate_token (c.generate_token uid t) uid now2 3600 = false := by
  have hsplit : splitDot1 (c.generate_token uid t) =
      some (intToStr t,
        c.hmac_sha256_hex c.secret (natToStr uid ++ ':' :: intToStr t)) := by
    unfold CSRFProtection.generate_token
    exact splitDot1_append _ _ (dot_not_mem_intToStr t)
  refine ⟨rfl, ?_, ?_, ?_⟩
  · unfold CSRFProtection.validate_token
    simp only [hsplit, strToInt_intToStr]
    rw [if_neg (by omega)]
    simp
  · intro m
    unfold CSRFProtection.validate_token
    simp only [hsplit, strToInt_intToStr]
    by_cases hm : 3600 < m - t
    · rw [if_pos hm]
    · rw [if_neg hm]
      exact decide_eq_false (fun hEq => hdiff (Eq.symm hEq))
  · unfold CSRFProtection.validate_token
    simp only [hsplit, strToInt_intToStr]
    rw [if_pos (by omega)]

/-- Concrete instance of `csrf_token_validation`: a token minted for user 1
at time 5 has the documented shape, validates for user 1 at time 100, and
is rejected at time 4000 (max-age exceeded). -/
theorem csrf_token_validation_witness :
    wCSRF.generate_token 1 5 =
      intToStr 5 ++ '.' ::
        wCSRF.hmac_sha256_hex wCSRF.secret (natToStr 1 ++ ':' :: intToStr 5) ∧
    wCSRF.validate_token (wCSRF.generate_token 1 5) 1 100 3600 = true ∧
    wCSRF.validate_token (wCSRF.generate_token 1 5) 1 4000 3600 = false := by
  have e1 : natToStr 1 = ['1'] := by
    rw [natToStr]
    decide
  have e2 : natToStr 2 = ['2'] := by
    rw [natToStr]
    decide
  have h := csrf_token_validation wCSRF 1 2 5 100 4000 (by decide) (by decide)
    (by
      show ¬ (natToStr 2 ++ ':' :: intToStr 5) = (natToStr 1 ++ ':' :: intToStr 5)
      rw [e1, e2]
      simp)
  exact ⟨h.1, h.2.1, h.2.2.2⟩

/-! ## Evaluation lemmas for `verify_token` -/

lemma jwtDecode_ok (p : JwtPayload) (now : Time) (hexp : ¬ p.exp < now) :
    jwtDecode (Tok.signed p) now = .ok p := by
  simp only [jwtDecode]
  rw [if_neg hexp]

lemma verify_token_access_none (st : St) (p : JwtPayload) (now : Time)
    (htype : p.type = "access") (hexp : ¬ p.exp < now)
    (hfind : st.db.sessions.find? (verifyPred (Tok.signed p) now) = none) :
    verify_token st (Tok.signed p) "access" now =
      (.error (.http ⟨401, .msg "Token not found or expired"⟩), st) := by
  simp [verify_token, jwtDecode_ok p now hexp, htype, hfind]

lemma verify_token_access_found (st : St) (p : JwtPayload) (now : Time)
    (row : SessionRow)
    (htype : p.type = "access") (hexp : ¬ p.exp < now)
    (hfind : st.db.sessions.find? (verifyPred (Tok.signed p) now) = some row) :
    verify_token st (Tok.signed p) "access" now =
      (.ok p, dbCommit { st with db := { st.db with sessions :=
        (updateFirst (verifyPred (Tok.signed p) now)
          (fun s => { s with last_accessed := now }) st.db.sessions) } }) := by
  simp [verify_token, jwtDecode_ok p now hexp, htype, hfind]

lemma verify_token_refresh_ok (st : St) (p : JwtPayload) (now : Time)
    (htype : p.type = "refresh") (hexp : ¬ p.exp < now) :
    verify_token st (Tok.signed p) "refresh" now = (.ok p, st) := by
  simp [verify_token, jwtDecode_ok p now hexp, htype]

/-! ## C7: logout by access token -/

/-- C7 counterexample: for a well-signed, unexpired access token with no
live session row, `logout_user` raises 401 (Token not found or expired)
from inside `verify_token` instead of returning `false`; the state is
unchanged. -/
theorem logout_no_session_cex :
    logout_user wStEmpty wAccessTok 50 =
      (.error (.http ⟨401, .msg "Token not found or expired"⟩), wStEmpty) ∧
    (logout_user wStEmpty wAccessTok 50).1 ≠ .ok false :=
  ⟨rfl, fun h => Except.noConfusion
    ((show (logout_user wStEmpty wAccessTok 50).1 =
        .error (.http ⟨401, .msg "Token not found or expired"⟩) from rfl).symm.trans h)⟩

/-- C7 (amended): `logout_user` first verifies the token, and that
verification itself demands an active, unexpired session row: when no such
row matches, the call fails with 401 Unauthenticated rather than returning
false; when a unique live row matches the token and its user matches the
payload, the call returns true and every session holding that token is
left inactive. -/
theorem logout_semantics (st : St) (p : JwtPayload) (now : Time)
    (htype : p.type = "access") (hexp : ¬ p.exp < now) :
    (st.db.sessions.find? (verifyPred (Tok.signed p) now) = none →
      logout_user st (Tok.signed p) now =
        (.error (.http ⟨401, .msg "Token not found or expired"⟩), st)) ∧
    (∀ row ∈ st.db.sessions,
      verifyPred (Tok.signed p) now row = true →
      row.user_id = p.user_id →
      (st.db.sessions.countP fun s => decide (s.session_token = Tok.signed p)) ≤ 1 →
      (logout_user st (Tok.signed p) now).1 = .ok true ∧
      (∀ s ∈ (logout_user st (Tok.signed p) now).2.db.sessions,
        s.session_token = Tok.signed p → s.is_active = false)) := by
  constructor
  · intro hfind
    simp [logout_user, verify_token_access_none st p now htype hexp hfind]
  · intro row hrow hvp huid hcount
    have hcomp := hvp
    simp only [verifyPred, Bool.and_eq_true, decide_eq_true_eq] at hcomp
    obtain ⟨⟨htok, hact⟩, hexpiry⟩ := hcomp
    have hq_row : (fun s : SessionRow =>
        decide (s.session_token = Tok.signed p)) row = true := by
      simp [htok]
    have hpq : ∀ y, verifyPred (Tok.signed p) now y = true →
        (fun s : SessionRow => decide (s.session_token = Tok.signed p)) y = true := by
      intro y hy
      simp only [verifyPred, Bool.and_eq_true] at hy
      exact hy.1.1
    have hfind1 : st.db.sessions.find? (verifyPred (Tok.signed p) now) = some row :=
      find?_unique hrow hvp hcount hq_row hpq
    have hv := verify_token_access_found st p now row htype hexp hfind1
    have hupd := updateFirst_unique_eq
      (fun s : SessionRow => { s with last_accessed := now }) hrow hvp hcount hq_row hpq
    have hmem1 : ({ row with last_accessed := now } : SessionRow) ∈
        st.db.sessions.map (fun y =>
          if decide (y.session_token = Tok.signed p) = true then
            { y with last_accessed := now } else y) := by
      refine List.mem_map.2 ⟨row, hrow, ?_⟩
      rw [if_pos (by simp [htok])]
    have hlp1 : logoutPred (Tok.signed p) p.user_id
        ({ row with last_accessed := now } : SessionRow) = true := by
      simp [logoutPred, htok, hact, huid]
    have hcount1 : ((st.db.sessions.map (fun y =>
        if decide (y.session_token = Tok.signed p) = true then
          { y with last_accessed := now } else y)).countP
            fun s => decide (s.session_token = Tok.signed p)) ≤ 1 := by
      rw [List.countP_map]
      have hsame : ∀ y ∈ st.db.sessions,
          ((fun s : SessionRow => decide (s.session_token = Tok.signed p)) ∘
            (fun y => if decide (y.session_token = Tok.signed p) = true then
              { y with last_accessed := now } else y)) y =
          (fun s : SessionRow => decide (s.session_token = Tok.signed p)) y := by
        intro y _
        by_cases hy : y.session_token = Tok.signed p <;> simp [hy]
      rw [List.countP_congr (fun y hy => by rw [hsame y hy])]
      exact hcount
    have hq1 : (fun s : SessionRow => decide (s.session_token = Tok.signed p))
        ({ row with last_accessed := now } : SessionRow) = true := by
      simp [htok]
    have hpq1 : ∀ y, logoutPred (Tok.signed p) p.user_id y = true →
        (fun s : SessionRow => decide (s.session_token = Tok.signed p)) y = true := by
      intro y hy
      simp only [logoutPred, Bool.and_eq_true] at hy
      exact hy.1.1
    have hfind2 : ((st.db.sessions.map (fun y =>
        if decide (y.session_token = Tok.signed p) = true then
          { y with last_accessed := now } else y)).find?
            (logoutPred (Tok.signed p) p.user_id)) =
        some { row with last_accessed := now } :=
      find?_unique hmem1 hlp1 hcount1 hq1 hpq1
    have hfind2' : ((updateFirst (verifyPred (Tok.signed p) now)
        (fun s => { s with last_accessed := now }) st.db.sessions).find?
          (logoutPred (Tok.signed p) p.user_id)) =
        some { row with last_accessed := now } := by
      rw [hupd]
      exact hfind2
    have hupd2 := updateFirst_unique_eq
      (fun s : SessionRow => { s with is_active := false }) hmem1 hlp1 hcount1 hq1 hpq1
    have hsess : ∀ s ∈ updateFirst (logoutPred (Tok.signed p) p.user_id)
        (fun s => { s with is_active := false })
        (updateFirst (verifyPred (Tok.signed p) now)
          (fun s => { s with last_accessed := now }) st.db.sessions),
        s.session_token = Tok.signed p → s.is_active = false := by
      rw [hupd, hupd2]
      intro s hs htokS
      rcases List.mem_map.1 hs with ⟨y1, hy1, rfl⟩
      rcases List.mem_map.1 hy1 with ⟨y, hy, rfl⟩
      by_cases hqy : y.session_token = Tok.signed p
      · simp [hqy]
      · simp [hqy] at htokS
    refine ⟨?_, ?_⟩
    · simp only [logout_user, hv, dbCommit, hfind2']
    · simp only [logout_user, hv, dbCommit, hfind2', log_audit_event]
      exact hsess

/-- Concrete instance of the success branch of `logout_semantics`: logging
out with a live session returns true. -/
theorem logout_semantics_witness :
    (logout_user wStTwoSessions wAccessTok 50).1 = .ok true :=
  ((logout_semantics wStTwoSessions ⟨1, "access", 100, 0, none⟩ 50 rfl
      (by decide)).2
    ⟨1, 1, wAccessTok, wRefreshTok, "d1", true, 300, 0⟩ (by decide) (by decide)
    rfl (by decide)).1

/-! ## C2: refresh-token rotation is one-shot -/

/-- C2: rotating a refresh token held by a unique active, unexpired session
row succeeds, issuing a fresh pair whose refresh token differs from the
old one; the old row is deactivated — afterwards no session holding the
old refresh token is active — and rotating the same refresh token again
fails with 401 (Refresh token not found or expired), changing nothing. -/
theorem refresh_rotation_one_shot (st : St) (rp : JwtPayload) (now : Time)
    (row : SessionRow) (dev jti : String)
    (htype : rp.type = "refresh") (hexp : ¬ rp.exp < now)
    (hrow : row ∈ st.db.sessions)
    (hpred : refreshPred (Tok.signed rp) rp.user_id now row = true)
    (hcount : (st.db.sessions.countP fun s =>
        decide (s.refresh_token = Tok.signed rp)) ≤ 1)
    (hjti : rp.jti ≠ some jti) :
    (refresh_token st (Tok.signed rp) dev now jti).1 =
      .ok { access_token :=
              Tok.signed ⟨rp.user_id, "access",
                now + access_token_expire_minutes * 60, now, none⟩
            refresh_token :=
              Tok.signed ⟨rp.user_id, "refresh",
                now + refresh_token_expire_days * 86400, now, some jti⟩
            token_type := "bearer"
            expires_in := access_token_expire_minutes * 60
            expires_at := now + access_token_expire_minutes * 60 } ∧
    Tok.signed (⟨rp.user_id, "refresh",
      now + refresh_token_expire_days * 86400, now, some jti⟩ : JwtPayload) ≠
      Tok.signed rp ∧
    (∀ s ∈ (refresh_token st (Tok.signed rp) dev now jti).2.db.sessions,
        s.refresh_token = Tok.signed rp → s.is_active = false) ∧
    (∀ now2 dev2 jti2, ¬ rp.exp < now2 →
      refresh_token ((refresh_token st (Tok.signed rp) dev now jti).2)
          (Tok.signed rp) dev2 now2 jti2 =
        (.error (.http ⟨401, .msg "Refresh token not found or expired"⟩),
         (refresh_token st (Tok.signed rp) dev now jti).2)) := by
  have hvr := verify_token_refresh_ok st rp now htype hexp
  have hcomp := hpred
  simp only [refreshPred, Bool.and_eq_true, decide_eq_true_eq] at hcomp
  obtain ⟨⟨⟨htok, huid⟩, hact⟩, hexpiry⟩ := hcomp
  have hq_row : (fun s : SessionRow =>
      decide (s.refresh_token = Tok.signed rp)) row = true := by
    simp [htok]
  have hpq : ∀ y, refreshPred (Tok.signed rp) rp.user_id now y = true →
      (fun s : SessionRow => decide (s.refresh_token = Tok.signed rp)) y = true := by
    intro y hy
    simp only [refreshPred, Bool.and_eq_true] at hy
    exact hy.1.1.1
  have hfind : st.db.sessions.find?
      (refreshPred (Tok.signed rp) rp.user_id now) = some row :=
    find?_unique hrow hpred hcount hq_row hpq
  have hupd := updateFirst_unique_eq
    (fun s : SessionRow => { s with is_active := false }) hrow hpred hcount hq_row hpq
  have hne : Tok.signed (⟨rp.user_id, "refresh",
      now + refresh_token_expire_days * 86400, now, some jti⟩ : JwtPayload) ≠
      Tok.signed rp := by
    intro h
    have h2 := Tok.signed.inj h
    apply hjti
    rw [← h2]
  refine ⟨?_, hne, ?_, ?_⟩
  · simp only [refresh_token, hvr, hfind, generate_tokens, dbCommit]
  · simp only [refresh_token, hvr, hfind, generate_tokens, dbCommit]
    intro s hs htokS
    rcases List.mem_append.1 hs with hs | hs
    · rw [hupd] at hs
      rcases List.mem_map.1 hs with ⟨y, hy, rfl⟩
      by_cases hqy : y.refresh_token = Tok.signed rp
      · simp [hqy]
      · simp [hqy] at htokS
    · have hseq : s = ⟨st.db.nextSessionId, rp.user_id,
          Tok.signed ⟨rp.user_id, "access",
            now + access_token_expire_minutes * 60, now, none⟩,
          Tok.signed ⟨rp.user_id, "refresh",
            now + refresh_token_expire_days * 86400, now, some jti⟩,
          dev, true, now + refresh_token_expire_days * 86400, now⟩ := by
        simpa using hs
      rw [hseq] at htokS
      exact absurd htokS hne
  · intro now2 dev2 jti2 hexp2
    have hvr2 : ∀ stX : St, verify_token stX (Tok.signed rp) "refresh" now2 =
        (.ok rp, stX) := fun stX => verify_token_refresh_ok stX rp now2 htype hexp2
    have hfind_none : ((updateFirst
        (refreshPred (Tok.signed rp) rp.user_id now)
        (fun s => { s with is_active := false }) st.db.sessions) ++
          [(⟨st.db.nextSessionId, rp.user_id,
            Tok.signed ⟨rp.user_id, "access",
              now + access_token_expire_minutes * 60, now, none⟩,
            Tok.signed ⟨rp.user_id, "refresh",
              now + refresh_token_expire_days * 86400, now, some jti⟩,
            dev, true, now + refresh_token_expire_days * 86400, now⟩ :
              SessionRow)]).find?
          (refreshPred (Tok.signed rp) rp.user_id now2) = none := by
      apply List.find?_eq_none.2
      intro s hs
      rcases List.mem_append.1 hs with hs | hs
      · rw [hupd] at hs
        rcases List.mem_map.1 hs with ⟨y, hy, rfl⟩
        by_cases hqy : y.refresh_token = Tok.signed rp
        · simp [refreshPred, hqy]
        · simp [refreshPred, hqy]
      · have hseq : s = ⟨st.db.nextSessionId, rp.user_id,
            Tok.signed ⟨rp.user_id, "access",
              now + access_token_expire_minutes * 60, now, none⟩,
            Tok.signed ⟨rp.user_id, "refresh",
              now + refresh_token_expire_days * 86400, now, some jti⟩,
            dev, true, now + refresh_token_expire_days * 86400, now⟩ := by
          simpa using hs
        rw [hseq]
        simp [refreshPred, hne]
    simp only [refresh_token, hvr, hvr2, hfind, generate_tokens, dbCommit,
      hfind_none]

/-! ## C1: one-shot redemption of a password-reset token -/

/-- Full characterization of a successful `reset_password` run: under a
strength-valid password, a unique matching unused, unexpired reset row,
and a unique owning user row, the run updates the hash, marks the token
used, bulk-deactivates the user sessions, commits once, and then commits
the audit row separately. -/
lemma reset_password_success_run (st : St) (hashFn : String → String)
    (tok pw : String) (now : Time) (r : ResetRow) (u : UserRow)
    (hvalid : (validate_password_strength pw).is_valid = true)
    (hr : r ∈ st.db.resets) (hpr : resetPred tok now r = true)
    (hrcount : (st.db.resets.countP fun x => decide (x.reset_token = tok)) ≤ 1)
    (hu : u ∈ st.db.users) (huid : u.id = r.user_id)
    (hucount : (st.db.users.countP fun x => decide (x.id = r.user_id)) ≤ 1) :
    reset_password st hashFn tok pw now =
      (.ok true,
       log_audit_event
         (dbCommit { st with db :=
           { st.db with
             users := (st.db.users.map (fun y =>
               if decide (y.id = r.user_id) = true then
                 { y with password_hash := hashFn pw } else y))
             resets := (st.db.resets.map (fun y =>
               if decide (y.reset_token = tok) = true then
                 { y with used := true } else y))
             sessions := (st.db.sessions.map (fun s =>
               if decide (s.user_id = r.user_id) && s.is_active then
                 { s with is_active := false } else s)) } })
         "password_reset_completed" (some r.user_id) none none) := by
  have hq_r : (fun x : ResetRow => decide (x.reset_token = tok)) r = true := by
    have := hpr
    simp only [resetPred, Bool.and_eq_true] at this
    exact this.1.1
  have hpq_r : ∀ y, resetPred tok now y = true →
      (fun x : ResetRow => decide (x.reset_token = tok)) y = true := by
    intro y hy
    simp only [resetPred, Bool.and_eq_true] at hy
    exact hy.1.1
  have hfindr : st.db.resets.find? (resetPred tok now) = some r :=
    find?_unique hr hpr hrcount hq_r hpq_r
  have hq_u : (fun x : UserRow => decide (x.id = r.user_id)) u = true := by
    simp [huid]
  have hfindu : st.db.users.find? (fun x => decide (x.id = r.user_id)) = some u :=
    find?_unique hu hq_u hucount hq_u (fun y hy => hy)
  have hupdr := updateFirst_unique_eq
    (fun y : ResetRow => { y with used := true }) hr hpr hrcount hq_r hpq_r
  have hupdu := updateFirst_unique_eq
    (fun y : UserRow => { y with password_hash := hashFn pw })
    hu hq_u hucount hq_u (fun y hy => hy)
  simp only [reset_password, hvalid]
  rw [if_neg (by decide)]
  simp only [hfindr, hfindu, hupdr, hupdu]

/-- C1 (amended): redeeming a valid reset token with a strength-valid
password succeeds, updates the owning user password hash, marks the token
used, and deactivates all of that user sessions; any second call with the
same token and a strength-valid password fails with 400 (Invalid or
expired reset token) and changes no state; a second call with a weak
password instead fails with the weak-password error, likewise changing no
state. -/
theorem reset_token_single_redemption (st : St) (hashFn : String → String)
    (tok pw : String) (now : Time) (r : ResetRow) (u : UserRow)
    (hvalid : (validate_password_strength pw).is_valid = true)
    (hr : r ∈ st.db.resets) (hpr : resetPred tok now r = true)
    (hrcount : (st.db.resets.countP fun x => decide (x.reset_token = tok)) ≤ 1)
    (hu : u ∈ st.db.users) (huid : u.id = r.user_id)
    (hucount : (st.db.users.countP fun x => decide (x.id = r.user_id)) ≤ 1) :
    (reset_password st hashFn tok pw now).1 = .ok true ∧
    (∀ x ∈ (reset_password st hashFn tok pw now).2.db.resets,
        x.reset_token = tok → x.used = true) ∧
    (∀ x ∈ (reset_password st hashFn tok pw now).2.db.users,
        x.id = r.user_id → x.password_hash = hashFn pw) ∧
    (∀ s ∈ (reset_password st hashFn tok pw now).2.db.sessions,
        s.user_id = r.user_id → s.is_active = false) ∧
    (∀ (hashFn2 : String → String) (pw2 : String) (now2 : Time),
        (validate_password_strength pw2).is_valid = true →
        reset_password ((reset_password st hashFn tok pw now).2) hashFn2 tok pw2 now2 =
          (.error (.http ⟨400, .msg "Invalid or expired reset token"⟩),
           (reset_password st hashFn tok pw now).2)) ∧
    (∀ (hashFn2 : String → String) (pw2 : String) (now2 : Time),
        (validate_password_strength pw2).is_valid = false →
        reset_password ((reset_password st hashFn tok pw now).2) hashFn2 tok pw2 now2 =
          (.error (.http ⟨400, .weak "Password does not meet requirements"
            (validate_password_strength pw2).errors⟩),
           (reset_password st hashFn tok pw now).2)) := by
  have hrun := reset_password_success_run st hashFn tok pw now r u
    hvalid hr hpr hrcount hu huid hucount
  refine ⟨?_, ?_, ?_, ?_, ?_, ?_⟩
  · rw [hrun]
  · rw [hrun]
    simp only [log_audit_event, dbCommit]
    intro x hx htokX
    rcases List.mem_map.1 hx with ⟨y, hy, rfl⟩
    by_cases hqy : y.reset_token = tok
    · simp [hqy]
    · simp [hqy] at htokX
  · rw [hrun]
    simp only [log_audit_event, dbCommit]
    intro x hx hidX
    rcases List.mem_map.1 hx with ⟨y, hy, rfl⟩
    by_cases hqy : y.id = r.user_id
    · simp [hqy]
    · simp [hqy] at hidX
  · rw [hrun]
    simp only [log_audit_event, dbCommit]
    intro s hs hsuid
    rcases List.mem_map.1 hs with ⟨y, hy, rfl⟩
    by_cases h1 : y.user_id = r.user_id <;> by_cases h2 : y.is_active = true <;>
      simp [h1, h2] at hsuid ⊢
  · intro hashFn2 pw2 now2 hvalid2
    rw [hrun]
    simp only [log_audit_event, dbCommit]
    have hnone : ((st.db.resets.map (fun y =>
        if decide (y.reset_token = tok) = true then
          { y with used := true } else y)).find? (resetPred tok now2)) = none := by
      apply List.find?_eq_none.2
      intro x hx
      rcases List.mem_map.1 hx with ⟨y, hy, rfl⟩
      by_cases hqy : y.reset_token = tok
      · simp [resetPred, hqy]
      · simp [resetPred, hqy]
    simp only [reset_password, hvalid2]
    rw [if_neg (by decide)]
    simp only [hnone]
  · intro hashFn2 pw2 now2 hinvalid2
    exact reset_password_weak_run _ hashFn2 tok pw2 now2 hinvalid2

/-- C1 counterexample for the claim as stated: after a successful
redemption, a second call with the same token and a weak password fails
with the weak-password error, not with the invalid-or-expired-token
error. -/
theorem reset_second_call_weak_cex :
    (reset_password wStReset (fun s => s) "rtok" "Abcdef1!" 10).1 = .ok true ∧
    (reset_password (reset_password wStReset (fun s => s) "rtok" "Abcdef1!" 10).2
        (fun s => s) "rtok" "x" 20).1 =
      .error (.http ⟨400, .weak "Password does not meet requirements"
        (validate_password_strength "x").errors⟩) ∧
    Detail.weak "Password does not meet requirements"
        (validate_password_strength "x").errors ≠
      Detail.msg "Invalid or expired reset token" :=
  ⟨rfl, rfl, fun h => Detail.noConfusion h⟩

/-- Concrete instance of `reset_token_single_redemption`: the first
redemption against the witness state succeeds and a strength-valid second
call fails with the invalid-or-expired-token error, changing nothing. -/
theorem reset_token_single_redemption_witness :
    (reset_password wStReset (fun s => s) "rtok" "Abcdef1!" 10).1 = .ok true :=
  (reset_token_single_redemption wStReset (fun s => s) "rtok" "Abcdef1!" 10
    ⟨1, "rtok", false, 100⟩ ⟨1, "a@x.com", "a", "oldhash", true⟩
    (by decide) (by decide) (by decide) (by decide) (by decide) rfl (by decide)).1

/-- Concrete instance of `refresh_rotation_one_shot`: rotating the witness
refresh token yields the expected fresh pair. -/
theorem refresh_rotation_one_shot_witness :
    (refresh_token wStOneSession wRefreshTok "d" 50 "jti9").1 =
      .ok { access_token :=
              Tok.signed ⟨1, "access", 50 + access_token_expire_minutes * 60, 50, none⟩
            refresh_token :=
              Tok.signed ⟨1, "refresh", 50 + refresh_token_expire_days * 86400, 50,
                some "jti9"⟩
            token_type := "bearer"
            expires_in := access_token_expire_minutes * 60
            expires_at := 50 + access_token_expire_minutes * 60 } :=
  (refresh_rotation_one_shot wStOneSession ⟨1, "refresh", 1000, 0, some "jti1"⟩ 50
    ⟨1, 1, wAccessTok, wRefreshTok, "d1", true, 300, 0⟩ "d" "jti9"
    rfl (by decide) (by decide) (by decide) (by decide) (by decide)).1

/-! ## C3: enumeration resistance of the password-reset request -/

/-- C3 counterexample for the claim as stated: for an email with no active
user, the route raises an HTTPException (status 200, enumeration-safe
message) past the route boundary, while an existing email gets a normal
return; the two caller-visible outcomes are not the same value, although
the lookup miss creates zero reset rows (the state is untouched). -/
theorem forgot_password_enumeration_cex :
    forgot_password wStReset "b@x.com" 10 "tok2" none none =
      (.raised ⟨200, .msg enumeration_safe_message⟩, wStReset) ∧
    (forgot_password wStReset "a@x.com" 10 "tok2" none none).1 =
      .ok enumeration_safe_message ∧
    (RouteResult.raised ⟨200, .msg enumeration_safe_message⟩ :
        RouteResult String) ≠ .ok enumeration_safe_message :=
  ⟨rfl, rfl, fun h => RouteResult.noConfusion h⟩

/-- C3 (amended): requesting a reset for an email with no active user
creates zero reset-token rows and raises an HTTPException carrying status
200 and the same enumeration-safe message as the success path; this
exception propagates past the route boundary, so the caller sees the
exception body rather than the normal success body.  For an existing
active user the route returns the success message and appends exactly one
reset row. -/
theorem forgot_password_miss_semantics (st : St) (email : String) (now : Time)
    (tok : String) (ip ua : Option String)
    (hmiss : st.db.users.find?
      (fun u => decide (u.email = email) && u.is_active) = none) :
    forgot_password st email now tok ip ua =
      (.raised ⟨200, .msg enumeration_safe_message⟩, st) ∧
    (∀ (st2 : St) (email2 : String) (now2 : Time) (tok2 : String)
        (ip2 ua2 : Option String) (u2 : UserRow),
      st2.db.users.find?
          (fun u => decide (u.email = email2) && u.is_active) = some u2 →
      (forgot_password st2 email2 now2 tok2 ip2 ua2).1 =
        .ok enumeration_safe_message ∧
      (forgot_password st2 email2 now2 tok2 ip2 ua2).2.db.resets =
        st2.db.resets ++ [⟨u2.id, tok2, false, now2 + 3600⟩]) := by
  constructor
  · simp only [forgot_password, create_password_reset_token, hmiss]
  · intro st2 email2 now2 tok2 ip2 ua2 u2 hhit
    constructor
    · simp only [forgot_password, create_password_reset_token, hhit,
        log_audit_event, dbCommit]
    · simp only [forgot_password, create_password_reset_token, hhit,
        log_audit_event, dbCommit]

/-- Concrete instance of `forgot_password_miss_semantics` at an email with
no user. -/
theorem forgot_password_miss_semantics_witness :
    forgot_password wStReset "b@x.com" 10 "tok2" none none =
      (.raised ⟨200, .msg enumeration_safe_message⟩, wStReset) :=
  (forgot_password_miss_semantics wStReset "b@x.com" 10 "tok2" none none
    (by decide)).1

/-! ## C4: the audit entry is committed separately from the primary change -/

/-- C4 counterexample for the claim as stated: running a successful
password reset from a state with an empty commit trace produces two
committed transactions; the first already contains the primary change (the
reset token is marked used) but no `password_reset_completed` audit entry —
that entry only appears in the second, separate commit. -/
theorem audit_separate_commit_cex :
    ((reset_password wStReset (fun s => s) "rtok" "Abcdef1!" 10).2).committed.map
        (fun d => d.audits.countP
          (fun a => decide (a.action = "password_reset_completed"))) = [0, 1] ∧
    ((reset_password wStReset (fun s => s) "rtok" "Abcdef1!" 10).2).committed.map
        (fun d => d.resets.countP (fun x => x.used)) = [1, 1] :=
  ⟨rfl, rfl⟩

/-- C4 (amended): the audit-log entry of a mutating operation is committed
in its own, later transaction, after the primary state change has already
been committed (shown for bulk session revocation and password reset): the
commit trace of the operation is a primary commit whose audit table is
unchanged, followed by a second commit that only adds the audit row.  A
failure of the audit write would therefore leave a committed primary
change without its audit entry. -/
theorem audit_separate_commit (st : St) (hashFn : String → String)
    (tok pw : String) (now : Time) (r : ResetRow) (u : UserRow)
    (uid : Nat) (ec : Option Tok)
    (hempty : st.committed = [])
    (hvalid : (validate_password_strength pw).is_valid = true)
    (hr : r ∈ st.db.resets) (hpr : resetPred tok now r = true)
    (hrcount : (st.db.resets.countP fun x => decide (x.reset_token = tok)) ≤ 1)
    (hu : u ∈ st.db.users) (huid : u.id = r.user_id)
    (hucount : (st.db.users.countP fun x => decide (x.id = r.user_id)) ≤ 1) :
    (∃ d1 d2 : DB,
      ((reset_password st hashFn tok pw now).2).committed = [d1, d2] ∧
      d1.audits = st.db.audits ∧
      d2.audits = st.db.audits ++
        [⟨some r.user_id, "password_reset_completed", none, none⟩] ∧
      d1.resets = (st.db.resets.map (fun y =>
        if decide (y.reset_token = tok) = true then
          { y with used := true } else y))) ∧
    (∃ e1 e2 : DB,
      ((revoke_all_sessions st uid ec).2).committed = [e1, e2] ∧
      e1.audits = st.db.audits ∧
      e2.audits = st.db.audits ++
        [⟨some uid, "all_sessions_revoked", none, none⟩] ∧
      e1.sessions = (st.db.sessions.map (fun s =>
        if revokeAllPred uid ec s then { s with is_active := false } else s))) := by
  constructor
  · have hrun := reset_password_success_run st hashFn tok pw now r u
      hvalid hr hpr hrcount hu huid hucount
    rw [hrun]
    simp only [log_audit_event, dbCommit, hempty]
    exact ⟨_, _, rfl, rfl, rfl, rfl⟩
  · simp only [revoke_all_sessions, log_audit_event, dbCommit, hempty]
    exact ⟨_, _, rfl, rfl, rfl, rfl⟩

/-- Concrete instance of `audit_separate_commit`: the reset on the witness
state commits the primary change first, then the audit row. -/
theorem audit_separate_commit_witness :
    ∃ d1 d2 : DB,
      ((reset_password wStReset (fun s => s) "rtok" "Abcdef1!" 10).2).committed =
        [d1, d2] ∧
      d1.audits = wStReset.db.audits ∧
      d2.audits = wStReset.db.audits ++
        [⟨some 1, "password_reset_completed", none, none⟩] ∧
      d1.resets = (wStReset.db.resets.map (fun y =>
        if decide (y.reset_token = "rtok") = true then
          { y with used := true } else y)) :=
  (audit_separate_commit wStReset (fun s => s) "rtok" "Abcdef1!" 10
    ⟨1, "rtok", false, 100⟩ ⟨1, "a@x.com", "a", "oldhash", true⟩ 1 none
    rfl (by decide) (by decide) (by decide) (by decide) (by decide) rfl
    (by decide)).1

end RagAuth
